import Mathlib

/-!
Verification of the flights service (`src/flights/service.py`,
`src/flights/utils.py`, `src/flights/models.py`).

The development shallowly embeds the service layer:
pure helpers (`_order_passengers`, `assert_unique`) become Lean functions,
and the storage-backed operations become explicit state passing over an
association list of flight documents.  Machine integers are modelled as
`Int`/`Nat` (Python integers are unbounded, so no wrap-around is needed);
Python float division in the sort key is modelled as exact division in `ℚ`.
Fallible operations return `Except`.
-/

namespace Flights

open scoped List

/-- Tier categories, from `FlightCategories` in `models.py`. -/
inductive FlightCategories
  | BLACK
  | PLATINUM
  | GOLD
  | NORMAL
deriving DecidableEq, Repr

/-- One passenger, from `PassengerBase` in `models.py`.  `age` is validated
`ge=0` by the model, hence `Nat`.  `Passenger` and `PassengerCreate` add no
fields over `PassengerBase`, so a single structure models both. -/
structure PassengerCreate where
  id : Int
  name : String
  has_connections : Bool
  age : Nat
  flight_category : FlightCategories
  reservation_id : String
  has_checked_baggage : Bool
deriving DecidableEq, Repr

/-- The tier weight table `category_weights` from `_order_passengers`. -/
def category_weights : FlightCategories → Nat
  | .BLACK => 10
  | .PLATINUM => 7
  | .GOLD => 5
  | .NORMAL => 2

def connection_weight : Nat := 3

def checked_baggage_weight : Nat := 2

def age_weight : Nat := 1

/-- The per-passenger summand accumulated into a group's `total` inside the
grouping loop of `_order_passengers`. -/
def passenger_weight (p : PassengerCreate) : Nat :=
  category_weights p.flight_category
    + (if p.has_connections then connection_weight else 0)
    + (if p.has_checked_baggage then checked_baggage_weight else 0)
    + age_weight * p.age

/-- The `GroupedPassengers` TypedDict of `_order_passengers`. -/
structure GroupedPassengers where
  total : Nat
  passengers : List PassengerCreate
deriving DecidableEq, Repr

/-- One iteration of the grouping loop of `_order_passengers`: `setdefault`
the reservation key (new keys are appended at the end, matching dict
insertion order), append the passenger to the group and add its weight to
the group's running total. -/
def insert_passenger (gs : List (String × GroupedPassengers)) (p : PassengerCreate) :
    List (String × GroupedPassengers) :=
  match gs with
  | [] => [(p.reservation_id, ⟨passenger_weight p, [p]⟩)]
  | (k, g) :: rest =>
    if k = p.reservation_id then
      (k, ⟨g.total + passenger_weight p, g.passengers ++ [p]⟩) :: rest
    else
      (k, g) :: insert_passenger rest p

/-- The grouping loop of `_order_passengers`: the dict `groups`, as an
insertion-ordered association list from reservation id to grouped data. -/
def group_passengers (passengers : List PassengerCreate) :
    List (String × GroupedPassengers) :=
  passengers.foldl insert_passenger []

/-- The average score `total / len(passengers)` of a group; Python computes
it with `/` on its way into the sort key.  Exact rational division models
it. -/
def avg (g : GroupedPassengers) : ℚ :=
  (g.total : ℚ) / (g.passengers.length : ℚ)

/-- The comparison induced by Python's ascending stable sort on the key
tuple `(-total / size, -size)`: lexicographic, so `g₁` precedes-or-ties
`g₂` iff `g₁` has strictly larger average, or equal average and at least
as large a size. -/
def GroupLE (g₁ g₂ : GroupedPassengers) : Prop :=
  avg g₂ < avg g₁ ∨ (avg g₁ = avg g₂ ∧ g₂.passengers.length ≤ g₁.passengers.length)

/-- A kernel-computable form of the average: `Rat.divInt` instead of field
division (the two agree, see `avg_eq_avg_key`). -/
def avg_key (g : GroupedPassengers) : ℚ :=
  Rat.divInt (g.total : Int) (g.passengers.length : Int)

instance : DecidableRel GroupLE := fun g₁ g₂ =>
  decidable_of_iff
    (avg_key g₂ < avg_key g₁ ∨
      (avg_key g₁ = avg_key g₂ ∧ g₂.passengers.length ≤ g₁.passengers.length))
    (by
      have h : ∀ g : GroupedPassengers, avg g = avg_key g := fun g => by
        rw [avg, avg_key, Rat.divInt_eq_div]
        push_cast
        rfl
      rw [GroupLE, h g₁, h g₂])

instance : IsTotal GroupedPassengers GroupLE where
  total g₁ g₂ := by
    unfold GroupLE
    rcases lt_trichotomy (avg g₁) (avg g₂) with h | h | h
    · exact Or.inr (Or.inl h)
    · rcases Nat.le_total g₂.passengers.length g₁.passengers.length with h' | h'
      · exact Or.inl (Or.inr ⟨h, h'⟩)
      · exact Or.inr (Or.inr ⟨h.symm, h'⟩)
    · exact Or.inl (Or.inl h)

instance : IsTrans GroupedPassengers GroupLE where
  trans g₁ g₂ g₃ h₁₂ h₂₃ := by
    unfold GroupLE at *
    rcases h₁₂ with h₁₂ | ⟨e₁₂, s₁₂⟩ <;> rcases h₂₃ with h₂₃ | ⟨e₂₃, s₂₃⟩
    · exact Or.inl (h₂₃.trans h₁₂)
    · exact Or.inl (e₂₃ ▸ h₁₂)
    · exact Or.inl (h₂₃.trans_eq e₁₂.symm)
    · exact Or.inr ⟨e₁₂.trans e₂₃, s₂₃.trans s₁₂⟩

/-- `ordered_groups` from `_order_passengers`: `sorted(groups.values(), key=...)`.
Python's `sorted` is specified as a stable ascending sort by the key; a
stable sort's output is uniquely determined by that specification, so the
structurally recursive stable `List.insertionSort` models it exactly. -/
def ordered_groups (passengers : List PassengerCreate) : List GroupedPassengers :=
  ((group_passengers passengers).map Prod.snd).insertionSort GroupLE

/-- One iteration of the capacity walk of `_order_passengers`: the group is
seated in its entirety when the running seated count plus the group size
fits the capacity, and otherwise goes entirely to overbooked. -/
def seat_step (capacity : Int) (acc : List PassengerCreate × List PassengerCreate)
    (g : GroupedPassengers) : List PassengerCreate × List PassengerCreate :=
  if (acc.1.length : Int) + (g.passengers.length : Int) ≤ capacity then
    (acc.1 ++ g.passengers, acc.2)
  else
    (acc.1, acc.2 ++ g.passengers)

/-- The capacity walk of `_order_passengers` over the ranked groups,
threading the `booked`/`overbooked` accumulators. -/
def seat_walk (capacity : Int) (gs : List GroupedPassengers)
    (acc : List PassengerCreate × List PassengerCreate) :
    List PassengerCreate × List PassengerCreate :=
  gs.foldl (seat_step capacity) acc

/-- `_order_passengers` from `service.py`: group, rank, and partition the
candidate list against the capacity, returning `(booked, overbooked)`. -/
def order_passengers (passengers : List PassengerCreate) (capacity : Int) :
    List PassengerCreate × List PassengerCreate :=
  seat_walk capacity (ordered_groups passengers) ([], [])

instance {ε α : Type} [DecidableEq ε] [DecidableEq α] : DecidableEq (Except ε α) :=
  fun a b =>
    match a, b with
    | .ok x, .ok y =>
      if h : x = y then .isTrue (by rw [h]) else
        .isFalse (fun hc => h (Except.ok.inj hc))
    | .error e, .error f =>
      if h : e = f then .isTrue (by rw [h]) else
        .isFalse (fun hc => h (Except.error.inj hc))
    | .ok _, .error _ => .isFalse (fun hc => Except.noConfusion hc)
    | .error _, .ok _ => .isFalse (fun hc => Except.noConfusion hc)

/-- The payload of the `ValueError` raised by `assert_unique` in `utils.py`:
the first message names no key values, the second embeds the set of
duplicated values. -/
inductive DupError
  | dup_in_new
  | dup_with_old (ids : Finset Int)
deriving DecidableEq

/-- The identifier set a `DupError` carries, if any. -/
def DupError.carried_ids : DupError → Option (Finset Int)
  | .dup_in_new => none
  | .dup_with_old ids => some ids

/-- `assert_unique` from `utils.py`.  The Python function receives lists of
dicts and a key name and skips items whose key is missing or `None`; every
call site uses key `"id"`, which the models make a mandatory `int`, so the
embedding extracts keys with a total function. -/
def assert_unique {α : Type} (old_data new_data : List α) (key : α → Int) :
    Except DupError Unit :=
  let old_keys := old_data.map key
  let new_keys := new_data.map key
  if new_keys.length ≠ new_keys.toFinset.card then
    .error .dup_in_new
  else
    let duplicates := new_keys.toFinset ∩ old_keys.toFinset
    if duplicates ≠ ∅ then
      .error (.dup_with_old duplicates)
    else
      .ok ()

/-- The error taxonomy of `service.py`.  `DuplicatePassengerError` is raised
`from` the underlying `ValueError` but carries no identifiers itself. -/
inductive Err
  | notFound
  | passengerNotFound
  | duplicatePassenger
deriving DecidableEq, Repr

/-- One stored flight document, the shape `flights_create` inserts:
flight attributes plus the `passengers` and `overbookedPassengers` arrays. -/
structure FlightDoc where
  flight_code : String
  capacity : Int
  passengers : List PassengerCreate
  overbookedPassengers : List PassengerCreate
deriving DecidableEq, Repr

/-- The flights collection, as an association list from document id to
document (insertion-ordered, ids generated by the caller of insert). -/
abbrev FlightStore := List (Nat × FlightDoc)

/-- `find_one` on the flights collection by `_id`. -/
def find_flight (store : FlightStore) (flight_id : Nat) : Option FlightDoc :=
  (store.find? (fun e => e.1 == flight_id)).map Prod.snd

/-- `$set`-style in-place update of the document with the given id. -/
def store_update (store : FlightStore) (flight_id : Nat) (f : FlightDoc → FlightDoc) :
    FlightStore :=
  store.map (fun e => if e.1 == flight_id then (e.1, f e.2) else e)

/-- The payload of a create request (`FlightCreate` in `models.py`). -/
structure FlightCreate where
  flight_code : String
  capacity : Int
  passengers : List PassengerCreate
deriving DecidableEq, Repr

/-- The payload of a full update (`FlightUpdate` in `models.py`):
`flight_code` and `capacity` are mandatory; `passengers := none` models the
`"passengers"` field being absent from the payload (not in
`model_fields_set`). -/
structure FlightUpdate where
  flight_code : String
  capacity : Int
  passengers : Option (List PassengerCreate)
deriving DecidableEq, Repr

/-- `_get_create_passengers_data` from `service.py`.  `data` is the dumped
passenger list (the dump round-trips, so it is the list itself).  With
`flight_id=None` the Python code looks up `ObjectId(None)` — a freshly
generated id — so the lookup finds nothing and, because `flight_id` is
`None`, no `NotFoundError` is raised and the existing list is empty. -/
def get_create_passengers_data (store : FlightStore) (flight_id : Option Nat)
    (passengers : List PassengerCreate) : Except Err (List PassengerCreate) :=
  let data := passengers
  let flight := flight_id.bind (find_flight store)
  if flight.isNone && flight_id.isSome then
    .error .notFound
  else
    let existing_passengers := (flight.map FlightDoc.passengers).getD []
    match assert_unique existing_passengers data (fun p => p.id) with
    | .error _ => .error .duplicatePassenger
    | .ok _ => .ok data

/-- `flights_create` from `service.py`: allocate, guard each resulting
subset against empty existing state, then insert the document (whose id
`new_id` the storage layer generates) and return it. -/
def flights_create (store : FlightStore) (new_id : Nat) (flight : FlightCreate) :
    Except Err FlightDoc × FlightStore :=
  match order_passengers flight.passengers flight.capacity with
  | (booked_passengers, overbooked_passengers) =>
    match get_create_passengers_data store none booked_passengers with
    | .error e => (.error e, store)
    | .ok booked_passengers_data =>
      match get_create_passengers_data store none overbooked_passengers with
      | .error e => (.error e, store)
      | .ok overbooked_passengers_data =>
        let doc : FlightDoc :=
          { flight_code := flight.flight_code
            capacity := flight.capacity
            passengers := booked_passengers_data
            overbookedPassengers := overbooked_passengers_data }
        (.ok doc, store ++ [(new_id, doc)])

/-- `flights_update` from `service.py`: dump the mandatory flight
attributes, and when the `"passengers"` field is set, run the uniqueness
check against empty existing state (`flight_id=None`) and add the verbatim
list to the `$set` document; then `find_one_and_update`.  The `$set` never
mentions `overbookedPassengers`. -/
def flights_update (store : FlightStore) (flight_id : Nat) (flight : FlightUpdate) :
    Except Err FlightDoc × FlightStore :=
  match (match flight.passengers with
         | some ps => (get_create_passengers_data store none ps).map some
         | none => .ok none : Except Err (Option (List PassengerCreate))) with
  | .error e => (.error e, store)
  | .ok passengers_data =>
    match find_flight store flight_id with
    | none => (.error .notFound, store)
    | some doc =>
      let new_doc : FlightDoc :=
        { doc with
          flight_code := flight.flight_code
          capacity := flight.capacity
          passengers := passengers_data.getD doc.passengers }
      (.ok new_doc, store_update store flight_id (fun _ => new_doc))

/-- `flights_add_passengers` from `service.py`: uniqueness check against the
flight's current seated list (raising not-found if the flight is missing),
then `$push` the batch onto `passengers`. -/
def flights_add_passengers (store : FlightStore) (flight_id : Nat)
    (passengers : List PassengerCreate) : Except Err (List PassengerCreate) × FlightStore :=
  match get_create_passengers_data store (some flight_id) passengers with
  | .error e => (.error e, store)
  | .ok data =>
    match find_flight store flight_id with
    | none => (.error .notFound, store)
    | some _ =>
      (.ok data,
       store_update store flight_id
         (fun doc => { doc with passengers := doc.passengers ++ data }))

/-- `flights_remove_passengers` from `service.py`: `$pull` every passenger
whose id is in the batch from the seated array; `matched_count == 0` maps
to not-found, and `modified_count == 0` (nothing removed) to the distinct
passenger-not-found error. -/
def flights_remove_passengers (store : FlightStore) (flight_id : Nat)
    (passenger_ids : List Int) : Except Err Unit × FlightStore :=
  match find_flight store flight_id with
  | none => (.error .notFound, store)
  | some doc =>
    let remaining := doc.passengers.filter (fun p => !(passenger_ids.contains p.id))
    let new_store := store_update store flight_id (fun d => { d with passengers := remaining })
    if remaining.length = doc.passengers.length then
      (.error .passengerNotFound, new_store)
    else
      (.ok (), new_store)

/-- Sample passenger: id 1, reservation group A, weight 12. -/
def sample_pa : PassengerCreate := ⟨1, "pa", false, 10, .NORMAL, "A", false⟩

/-- Sample passenger sharing id 1 with `sample_pa` but in reservation group
B, weight 2. -/
def sample_pb : PassengerCreate := ⟨1, "pb", false, 0, .NORMAL, "B", false⟩

/-- Sample passenger: id 2, reservation group B, weight 2. -/
def sample_qb : PassengerCreate := ⟨2, "qb", false, 0, .NORMAL, "B", false⟩

/-- Sample passenger: id 3, reservation group C, weight 7. -/
def sample_rc : PassengerCreate := ⟨3, "rc", false, 5, .NORMAL, "C", false⟩

/-- Sample passenger: id 4, reservation group D, weight 7. -/
def sample_sd : PassengerCreate := ⟨4, "sd", false, 5, .NORMAL, "D", false⟩

/-! The theorems below settle the claims.  First, bridging lemmas. -/

theorem avg_eq_avg_key (g : GroupedPassengers) : avg g = avg_key g := by
  rw [avg, avg_key, Rat.divInt_eq_div]
  push_cast
  rfl

/-! Helper lemmas about the uniqueness guard -/

theorem length_eq_toFinset_card_iff {l : List Int} :
    l.length = l.toFinset.card ↔ l.Nodup := by
  rw [List.card_toFinset]
  constructor
  · intro h
    exact List.dedup_eq_self.mp ((List.dedup_sublist l).eq_of_length h.symm)
  · intro h
    rw [List.dedup_eq_self.mpr h]

theorem toFinset_inter_eq_empty_iff {l₁ l₂ : List Int} :
    l₁.toFinset ∩ l₂.toFinset = ∅ ↔ ∀ x ∈ l₁, x ∉ l₂ := by
  rw [Finset.eq_empty_iff_forall_not_mem]
  constructor
  · intro h x hx₁ hx₂
    exact h x (Finset.mem_inter.mpr ⟨List.mem_toFinset.mpr hx₁, List.mem_toFinset.mpr hx₂⟩)
  · intro h x hx
    rw [Finset.mem_inter, List.mem_toFinset, List.mem_toFinset] at hx
    exact h x hx.1 hx.2

theorem assert_unique_ok_iff {α : Type} (old_data new_data : List α) (key : α → Int) :
    assert_unique old_data new_data key = .ok () ↔
      ((new_data.map key).Nodup ∧ ∀ a ∈ new_data, key a ∉ old_data.map key) := by
  unfold assert_unique
  dsimp only
  split
  · next h =>
    have hnd : ¬(new_data.map key).Nodup := fun hn =>
      h (length_eq_toFinset_card_iff.mpr hn)
    simp [hnd]
  · next h =>
    have hnd : (new_data.map key).Nodup :=
      length_eq_toFinset_card_iff.mp (not_not.mp h)
    split
    · next h₂ =>
      obtain ⟨x, hx⟩ := Finset.nonempty_iff_ne_empty.mpr h₂
      rw [Finset.mem_inter, List.mem_toFinset, List.mem_toFinset] at hx
      obtain ⟨a, ha, rfl⟩ := List.mem_map.mp hx.1
      have : ¬∀ b ∈ new_data, key b ∉ old_data.map key := fun hall => hall a ha hx.2
      simp [this]
      intro _
      obtain ⟨b, hb, hba⟩ := List.mem_map.mp hx.2
      exact ⟨a, ha, b, hb, hba⟩
    · next h₂ =>
      have hemp := not_not.mp h₂
      rw [toFinset_inter_eq_empty_iff] at hemp
      have : ∀ a ∈ new_data, key a ∉ old_data.map key := fun a ha =>
        hemp (key a) (List.mem_map_of_mem key ha)
      simp [hnd, this]
      intro a ha b hb heq
      exact this a ha (heq ▸ List.mem_map_of_mem key hb)

theorem assert_unique_error_of_not_nodup {α : Type} (old_data new_data : List α)
    (key : α → Int) (h : ¬(new_data.map key).Nodup) :
    assert_unique old_data new_data key = .error .dup_in_new := by
  unfold assert_unique
  dsimp only
  split
  · rfl
  · next h' =>
    exact absurd (length_eq_toFinset_card_iff.mp (not_not.mp h')) h

theorem assert_unique_error_of_collision {α : Type} (old_data new_data : List α)
    (key : α → Int) (hnd : (new_data.map key).Nodup)
    (hc : ∃ a ∈ new_data, key a ∈ old_data.map key) :
    assert_unique old_data new_data key =
      .error (.dup_with_old ((new_data.map key).toFinset ∩ (old_data.map key).toFinset)) := by
  unfold assert_unique
  dsimp only
  split
  · next h => exact absurd (length_eq_toFinset_card_iff.mpr hnd) h
  · split
    · rfl
    · next h₂ =>
      obtain ⟨a, ha, hmem⟩ := hc
      rw [not_not, toFinset_inter_eq_empty_iff] at h₂
      exact absurd hmem (h₂ (key a) (List.mem_map_of_mem key ha))

/-! Claim C7 -/

/-- C7 (counterexample): an incoming batch with an internally repeated
identifier fails with the payload-free error, not one carrying the
offending identifier set — refuting that on either violation the error
carries the offending identifiers. -/
theorem assert_unique_payload_counterexample :
    assert_unique ([] : List Int) [1, 1] (fun x => x) = .error .dup_in_new ∧
      DupError.carried_ids .dup_in_new = none := by
  decide

/-- C7 (amended): `checkUnique` fails iff the batch has an internally
repeated identifier or collides with an existing one, and succeeds with no
result value otherwise; on a collision-only violation the error carries
the offending intersection set, but an internal-duplicate violation
produces an error carrying no identifier set. -/
theorem assert_unique_guard_spec {α : Type} (old_data new_data : List α) (key : α → Int) :
    (assert_unique old_data new_data key = .ok () ↔
      ((new_data.map key).Nodup ∧ ∀ a ∈ new_data, key a ∉ old_data.map key)) ∧
    (¬(new_data.map key).Nodup →
      assert_unique old_data new_data key = .error .dup_in_new ∧
        DupError.carried_ids .dup_in_new = none) ∧
    ((new_data.map key).Nodup → (∃ a ∈ new_data, key a ∈ old_data.map key) →
      assert_unique old_data new_data key =
        .error (.dup_with_old ((new_data.map key).toFinset ∩ (old_data.map key).toFinset)) ∧
      DupError.carried_ids
          (.dup_with_old ((new_data.map key).toFinset ∩ (old_data.map key).toFinset)) =
        some ((new_data.map key).toFinset ∩ (old_data.map key).toFinset)) := by
  refine ⟨assert_unique_ok_iff old_data new_data key, fun h => ?_, fun hnd hc => ?_⟩
  · exact ⟨assert_unique_error_of_not_nodup old_data new_data key h, rfl⟩
  · exact ⟨assert_unique_error_of_collision old_data new_data key hnd hc, rfl⟩

/-- C7 (witness): the amended specification applied to the concrete batch
`[7, 7]` against existing identifiers `[5]`. -/
theorem assert_unique_guard_spec_witness :
    assert_unique [(5 : Int)] [7, 7] (fun x => x) = .error .dup_in_new :=
  ((assert_unique_guard_spec [(5 : Int)] [7, 7] (fun x => x)).2.1 (by decide)).1

/-! Claim C9 -/

/-- C9: removal fails with the not-found error when the flight id is
absent, with the distinct passenger-not-found error when the flight exists
but no passenger matched the given identifiers, and succeeds otherwise. -/
theorem remove_passengers_error_spec (store : FlightStore) (flight_id : Nat)
    (ids : List Int) :
    (find_flight store flight_id = none →
      flights_remove_passengers store flight_id ids = (.error .notFound, store)) ∧
    (∀ doc, find_flight store flight_id = some doc →
      (∀ p ∈ doc.passengers, p.id ∉ ids) →
        (flights_remove_passengers store flight_id ids).1 = .error .passengerNotFound) ∧
    (∀ doc, find_flight store flight_id = some doc →
      (∃ p ∈ doc.passengers, p.id ∈ ids) →
        (flights_remove_passengers store flight_id ids).1 = .ok ()) := by
  refine ⟨fun h => ?_, fun doc h hall => ?_, fun doc h hex => ?_⟩
  · unfold flights_remove_passengers
    rw [h]
  · unfold flights_remove_passengers
    rw [h]
    dsimp only
    have hself : doc.passengers.filter (fun p => !(ids.contains p.id)) = doc.passengers := by
      apply List.filter_eq_self.mpr
      intro p hp
      simpa using hall p hp
    rw [if_pos (by rw [hself])]
  · unfold flights_remove_passengers
    rw [h]
    dsimp only
    rw [if_neg]
    intro heq
    have hself := (List.filter_sublist doc.passengers).eq_of_length heq
    obtain ⟨p, hp, hmem⟩ := hex
    have := List.filter_eq_self.mp hself p hp
    simp at this
    exact this hmem

/-- C9 (witness): removing identifier 1 succeeds on a flight whose seated
list holds a passenger with id 1, and removing from a missing flight is
not-found. -/
theorem remove_passengers_error_spec_witness :
    (flights_remove_passengers [(0, ⟨"F", 1, [sample_pa], []⟩)] 0 [1]).1 = .ok () :=
  (remove_passengers_error_spec [(0, ⟨"F", 1, [sample_pa], []⟩)] 0 [1]).2.2
    ⟨"F", 1, [sample_pa], []⟩ (by decide) (by decide)

/-! Claim C8 -/

/-- C8: an add-passengers batch that repeats an identifier internally or
collides with an identifier already seated on the flight fails with the
duplicate-passenger error, and the store it returns is exactly the input
store — the uniqueness check runs before any write. -/
theorem add_passengers_duplicate_rejected (store : FlightStore) (flight_id : Nat)
    (passengers : List PassengerCreate) (doc : FlightDoc)
    (h : find_flight store flight_id = some doc)
    (hdup : ¬(passengers.map (fun p => p.id)).Nodup ∨
      ∃ p ∈ passengers, p.id ∈ doc.passengers.map (fun p => p.id)) :
    flights_add_passengers store flight_id passengers =
      (.error .duplicatePassenger, store) := by
  unfold flights_add_passengers get_create_passengers_data
  simp only [Option.some_bind, h, Option.isNone_some, Option.isSome_some, Bool.and_self,
    Bool.false_and, Bool.false_eq_true, if_false]
  dsimp only [Option.map, Option.getD]
  by_cases hnd : (passengers.map (fun p => p.id)).Nodup
  · have hc := hdup.resolve_left (not_not_intro hnd)
    rw [assert_unique_error_of_collision doc.passengers passengers (fun p => p.id) hnd hc]
  · rw [assert_unique_error_of_not_nodup doc.passengers passengers (fun p => p.id) hnd]

/-- C8 (witness): adding a batch holding id 1 to a flight whose seated list
already holds id 1 fails with the duplicate error and leaves the store
untouched. -/
theorem add_passengers_duplicate_rejected_witness :
    flights_add_passengers [(0, ⟨"F", 1, [sample_pa], []⟩)] 0 [sample_qb, sample_pa] =
      (.error .duplicatePassenger, [(0, ⟨"F", 1, [sample_pa], []⟩)]) :=
  add_passengers_duplicate_rejected [(0, ⟨"F", 1, [sample_pa], []⟩)] 0
    [sample_qb, sample_pa] ⟨"F", 1, [sample_pa], []⟩ (by decide) (by decide)

/-! Helper lemmas about the store and the update path -/

theorem find_flight_store_update (store : FlightStore) (flight_id : Nat)
    (f : FlightDoc → FlightDoc) :
    find_flight (store_update store flight_id f) flight_id =
      (find_flight store flight_id).map f := by
  unfold find_flight store_update
  induction store with
  | nil => rfl
  | cons e rest ih =>
    cases he : (e.1 == flight_id) with
    | false => simpa [List.find?, he] using ih
    | true => simp [List.find?, he]

theorem get_create_passengers_data_none_ok (store : FlightStore)
    (ps : List PassengerCreate) (hnd : (ps.map (fun p => p.id)).Nodup) :
    get_create_passengers_data store none ps = .ok ps := by
  unfold get_create_passengers_data
  have hok := (assert_unique_ok_iff ([] : List PassengerCreate) ps (fun p => p.id)).mpr
    ⟨hnd, by simp⟩
  simp [hok]

/-! Claim C10 -/

/-- C10: a full update never touches the stored `overbookedPassengers`
list, and when the payload omits the `"passengers"` field the stored
seated list also survives unchanged. -/
theorem flights_update_overbooked_frame (store : FlightStore) (flight_id : Nat)
    (flight : FlightUpdate) (doc : FlightDoc)
    (h : find_flight store flight_id = some doc) :
    ∃ doc', find_flight (flights_update store flight_id flight).2 flight_id = some doc' ∧
      doc'.overbookedPassengers = doc.overbookedPassengers ∧
      (flight.passengers = none → doc'.passengers = doc.passengers) := by
  unfold flights_update
  cases hps : flight.passengers with
  | none =>
    dsimp only
    rw [h]
    dsimp only
    refine ⟨⟨flight.flight_code, flight.capacity, doc.passengers,
      doc.overbookedPassengers⟩, ?_, rfl, fun _ => rfl⟩
    rw [find_flight_store_update, h]
    rfl
  | some ps =>
    dsimp only
    cases hU : get_create_passengers_data store none ps with
    | error e =>
      dsimp only [Except.map]
      exact ⟨doc, h, rfl, fun hc => nomatch hc⟩
    | ok data =>
      dsimp only [Except.map]
      rw [h]
      dsimp only
      refine ⟨⟨flight.flight_code, flight.capacity, data,
        doc.overbookedPassengers⟩, ?_, rfl, fun hc => nomatch hc⟩
      rw [find_flight_store_update, h]
      rfl

/-- C10 (witness): updating flight code and capacity of a flight with a
non-empty overbooked list, with no `"passengers"` field in the payload,
preserves both stored passenger lists. -/
theorem flights_update_overbooked_frame_witness :
    ∃ doc',
      find_flight
          (flights_update [(0, ⟨"F", 1, [sample_pa], [sample_qb]⟩)] 0 ⟨"G", 2, none⟩).2 0 =
        some doc' ∧
      doc'.overbookedPassengers = [sample_qb] ∧
      ((⟨"G", 2, none⟩ : FlightUpdate).passengers = none → doc'.passengers = [sample_pa]) :=
  flights_update_overbooked_frame [(0, ⟨"F", 1, [sample_pa], [sample_qb]⟩)] 0
    ⟨"G", 2, none⟩ ⟨"F", 1, [sample_pa], [sample_qb]⟩ (by decide)

/-! Claim C1 -/

/-- C1 (counterexample): replacing the passenger list of a capacity-1
flight with two passengers in distinct reservation groups stores both of
them as seated and leaves overbooked empty, while the Allocation Engine on
the same list would seat only one and overbook the other — the full-update
operation does not re-run allocation. -/
theorem update_reallocation_counterexample :
    (flights_update [(0, ⟨"F", 1, [], []⟩)] 0 ⟨"F", 1, some [sample_pa, sample_qb]⟩).2 =
      [(0, ⟨"F", 1, [sample_pa, sample_qb], []⟩)] ∧
    (order_passengers [sample_pa, sample_qb] 1).1 = [sample_pa] ∧
    (order_passengers [sample_pa, sample_qb] 1).2 = [sample_qb] ∧
    [sample_pa, sample_qb] ≠ (order_passengers [sample_pa, sample_qb] 1).1 ∧
    ([] : List PassengerCreate) ≠ (order_passengers [sample_pa, sample_qb] 1).2 := by
  decide

/-- C1 (amended): when the full-update payload carries a `"passengers"`
field whose identifiers pass the uniqueness check against empty existing
state, the operation stores the replacement list verbatim as the seated
list — without re-running the Allocation Engine — and leaves the stored
overbooked list unchanged. -/
theorem flights_update_replaces_seated_verbatim (store : FlightStore) (flight_id : Nat)
    (flight : FlightUpdate) (doc : FlightDoc) (ps : List PassengerCreate)
    (h : find_flight store flight_id = some doc)
    (hps : flight.passengers = some ps)
    (hnd : (ps.map (fun p => p.id)).Nodup) :
    flights_update store flight_id flight =
      (.ok ⟨flight.flight_code, flight.capacity, ps, doc.overbookedPassengers⟩,
        store_update store flight_id
          (fun _ => ⟨flight.flight_code, flight.capacity, ps, doc.overbookedPassengers⟩)) := by
  unfold flights_update
  rw [hps]
  dsimp only
  rw [get_create_passengers_data_none_ok store ps hnd]
  dsimp only [Except.map]
  rw [h]
  rfl

/-- C1 (amended, witness): the verbatim replacement behaviour at the
concrete capacity-1 flight of the counterexample. -/
theorem flights_update_replaces_seated_verbatim_witness :
    flights_update [(0, ⟨"F", 1, [], [sample_rc]⟩)] 0 ⟨"F", 1, some [sample_pa, sample_qb]⟩ =
      (.ok ⟨"F", 1, [sample_pa, sample_qb], [sample_rc]⟩,
        store_update [(0, ⟨"F", 1, [], [sample_rc]⟩)] 0
          (fun _ => ⟨"F", 1, [sample_pa, sample_qb], [sample_rc]⟩)) :=
  flights_update_replaces_seated_verbatim [(0, ⟨"F", 1, [], [sample_rc]⟩)] 0
    ⟨"F", 1, some [sample_pa, sample_qb]⟩ ⟨"F", 1, [], [sample_rc]⟩
    [sample_pa, sample_qb] (by decide) rfl (by decide)

/-! Claim C2 -/

theorem get_create_passengers_data_ok_nodup (store : FlightStore) (flight_id : Option Nat)
    (ps data : List PassengerCreate)
    (h : get_create_passengers_data store flight_id ps = .ok data) :
    data = ps ∧ (data.map (fun p => p.id)).Nodup := by
  unfold get_create_passengers_data at h
  dsimp only at h
  split at h
  · exact absurd h (by simp)
  · cases hau : assert_unique
        ((Option.map FlightDoc.passengers (flight_id.bind (find_flight store))).getD [])
        ps (fun p => p.id) with
    | error e =>
      rw [hau] at h
      exact absurd h (by simp)
    | ok u =>
      rw [hau] at h
      have hps := Except.ok.inj h
      subst hps
      exact ⟨rfl, ((assert_unique_ok_iff _ ps (fun p => p.id)).mp hau).1⟩

/-- C2 (counterexample): creating a capacity-1 flight from two passengers
sharing identifier 1 but in different reservation groups succeeds — the
guard checks each output subset separately against empty state — and the
resulting reachable flight state holds identifier 1 in both the seated and
the overbooked list, violating union uniqueness. -/
theorem create_duplicate_across_partition_counterexample :
    flights_create [] 0 ⟨"F1", 1, [sample_pa, sample_pb]⟩ =
      (.ok ⟨"F1", 1, [sample_pa], [sample_pb]⟩,
        [(0, ⟨"F1", 1, [sample_pa], [sample_pb]⟩)]) ∧
    sample_pa.id = 1 ∧ sample_pb.id = 1 ∧
    ¬(([sample_pa, sample_pb].map (fun p => p.id)).Nodup) := by
  decide

/-- C2 (amended): every successful flight creation yields a document whose
seated identifier list and overbooked identifier list are each internally
duplicate-free; the guard does not compare the two subsets against each
other, so uniqueness across their union is not enforced. -/
theorem flights_create_subset_ids_nodup (store : FlightStore) (new_id : Nat)
    (flight : FlightCreate) (doc : FlightDoc) (new_store : FlightStore)
    (h : flights_create store new_id flight = (.ok doc, new_store)) :
    (doc.passengers.map (fun p => p.id)).Nodup ∧
      (doc.overbookedPassengers.map (fun p => p.id)).Nodup := by
  unfold flights_create at h
  rcases hbo : order_passengers flight.passengers flight.capacity with ⟨booked, overbooked⟩
  rw [hbo] at h
  dsimp only at h
  cases h₁ : get_create_passengers_data store none booked with
  | error e =>
    rw [h₁] at h
    exact absurd (congrArg Prod.fst h) (by simp)
  | ok booked_data =>
    rw [h₁] at h
    cases h₂ : get_create_passengers_data store none overbooked with
    | error e =>
      rw [h₂] at h
      exact absurd (congrArg Prod.fst h) (by simp)
    | ok overbooked_data =>
      rw [h₂] at h
      dsimp only at h
      have hdoc := Except.ok.inj (congrArg Prod.fst h)
      rw [← hdoc]
      exact ⟨(get_create_passengers_data_ok_nodup store none booked booked_data h₁).2,
        (get_create_passengers_data_ok_nodup store none overbooked overbooked_data h₂).2⟩

/-- C2 (amended, witness): a successful concrete creation with two distinct
identifiers split across seated and overbooked. -/
theorem flights_create_subset_ids_nodup_witness :
    (([sample_pa].map (fun p => p.id)).Nodup) ∧
      (([sample_qb].map (fun p => p.id)).Nodup) :=
  flights_create_subset_ids_nodup [] 0 ⟨"F", 1, [sample_pa, sample_qb]⟩
    ⟨"F", 1, [sample_pa], [sample_qb]⟩ [(0, ⟨"F", 1, [sample_pa], [sample_qb]⟩)]
    (by decide)

/-! Claim C5 -/

theorem passenger_weight_eq (p : PassengerCreate) :
    passenger_weight p =
      category_weights p.flight_category + (if p.has_connections then 3 else 0)
        + (if p.has_checked_baggage then 2 else 0) + p.age := by
  unfold passenger_weight connection_weight checked_baggage_weight age_weight
  rw [Nat.one_mul]

theorem insert_passenger_total (gs : List (String × GroupedPassengers)) (p : PassengerCreate)
    (h : ∀ e ∈ gs, e.2.total = (e.2.passengers.map passenger_weight).sum) :
    ∀ e ∈ insert_passenger gs p, e.2.total = (e.2.passengers.map passenger_weight).sum := by
  induction gs with
  | nil =>
    intro e he
    simp only [insert_passenger, List.mem_singleton] at he
    subst he
    simp
  | cons hd tl ih =>
    obtain ⟨k, g⟩ := hd
    intro e he
    rw [insert_passenger] at he
    by_cases hk : k = p.reservation_id
    · rw [if_pos hk] at he
      rcases List.mem_cons.mp he with he | he
      · subst he
        dsimp only
        rw [List.map_append, List.sum_append]
        have hg := h (k, g) (List.mem_cons_self _ _)
        dsimp only at hg
        simp [hg]
      · exact h e (List.mem_cons_of_mem _ he)
    · rw [if_neg hk] at he
      rcases List.mem_cons.mp he with he | he
      · subst he
        exact h (k, g) (List.mem_cons_self _ _)
      · exact ih (fun e' he' => h e' (List.mem_cons_of_mem _ he')) e he

theorem foldl_insert_total (ps : List PassengerCreate) :
    ∀ gs, (∀ e ∈ gs, e.2.total = (e.2.passengers.map passenger_weight).sum) →
      ∀ e ∈ ps.foldl insert_passenger gs,
        e.2.total = (e.2.passengers.map passenger_weight).sum := by
  induction ps with
  | nil =>
    intro gs h
    simpa using h
  | cons p rest ih =>
    intro gs h
    simp only [List.foldl_cons]
    exact ih _ (insert_passenger_total gs p h)

/-- C5: the tier weight table is BLACK=10, PLATINUM=7, GOLD=5, NORMAL=2,
and every reservation group produced by the grouping loop carries as its
aggregate score the sum over its members of
tier weight + 3 (connections) + 2 (checked baggage) + age. -/
theorem group_score_spec (ps : List PassengerCreate) :
    (category_weights .BLACK = 10 ∧ category_weights .PLATINUM = 7 ∧
      category_weights .GOLD = 5 ∧ category_weights .NORMAL = 2) ∧
    ∀ k g, (k, g) ∈ group_passengers ps →
      g.total = (g.passengers.map (fun p =>
        category_weights p.flight_category + (if p.has_connections then 3 else 0)
          + (if p.has_checked_baggage then 2 else 0) + p.age)).sum := by
  refine ⟨⟨rfl, rfl, rfl, rfl⟩, fun k g hm => ?_⟩
  have := foldl_insert_total ps [] (by simp) (k, g) hm
  dsimp only at this
  rw [this,
    show passenger_weight = (fun p : PassengerCreate =>
      category_weights p.flight_category + (if p.has_connections then 3 else 0)
        + (if p.has_checked_baggage then 2 else 0) + p.age) from funext passenger_weight_eq]

/-- C5 (witness): the single group formed from one concrete passenger of
age 10 in tier NORMAL with no connections and no checked baggage scores
12. -/
theorem group_score_spec_witness :
    (⟨12, [sample_pa]⟩ : GroupedPassengers).total =
      ([sample_pa].map (fun p =>
        category_weights p.flight_category + (if p.has_connections then 3 else 0)
          + (if p.has_checked_baggage then 2 else 0) + p.age)).sum :=
  (group_score_spec [sample_pa]).2 "A" ⟨12, [sample_pa]⟩ (by decide)

/-! Helper lemmas about the capacity walk -/

theorem seat_walk_nil (capacity : Int) (acc : List PassengerCreate × List PassengerCreate) :
    seat_walk capacity [] acc = acc := rfl

theorem seat_walk_cons (capacity : Int) (g : GroupedPassengers) (gs : List GroupedPassengers)
    (acc : List PassengerCreate × List PassengerCreate) :
    seat_walk capacity (g :: gs) acc = seat_walk capacity gs (seat_step capacity acc g) := rfl

theorem seat_walk_booked_extends (capacity : Int) (gs : List GroupedPassengers) :
    ∀ acc : List PassengerCreate × List PassengerCreate,
      ∃ t, (seat_walk capacity gs acc).1 = acc.1 ++ t := by
  induction gs with
  | nil =>
    intro acc
    exact ⟨[], (List.append_nil _).symm⟩
  | cons g rest ih =>
    intro acc
    rw [seat_walk_cons]
    unfold seat_step
    by_cases hc : (acc.1.length : Int) + (g.passengers.length : Int) ≤ capacity
    · rw [if_pos hc]
      obtain ⟨t, ht⟩ := ih (acc.1 ++ g.passengers, acc.2)
      exact ⟨g.passengers ++ t, by rw [ht, List.append_assoc]⟩
    · rw [if_neg hc]
      obtain ⟨t, ht⟩ := ih (acc.1, acc.2 ++ g.passengers)
      exact ⟨t, ht⟩

theorem seat_walk_booked_mem (capacity : Int) (gs : List GroupedPassengers)
    (acc : List PassengerCreate × List PassengerCreate) (p : PassengerCreate)
    (hp : p ∈ acc.1) : p ∈ (seat_walk capacity gs acc).1 := by
  obtain ⟨t, ht⟩ := seat_walk_booked_extends capacity gs acc
  rw [ht]
  exact List.mem_append_left t hp

/-! Claim C6 -/

/-- C6: the capacity walk admits a group entirely iff the running seated
count plus the group size fits the capacity, otherwise sends the entire
group to overbooked while keeping the running count unchanged; in
particular after rejecting a large group it still seats a smaller
lower-ranked group that fits against the same running count. -/
theorem seat_walk_best_effort (capacity : Int) (booked overbooked : List PassengerCreate)
    (g₁ g₂ : GroupedPassengers) (gs : List GroupedPassengers)
    (hrej : capacity < (booked.length : Int) + (g₁.passengers.length : Int))
    (hfit : (booked.length : Int) + (g₂.passengers.length : Int) ≤ capacity) :
    (∀ (g : GroupedPassengers) (gs' : List GroupedPassengers)
        (acc : List PassengerCreate × List PassengerCreate),
      ((acc.1.length : Int) + (g.passengers.length : Int) ≤ capacity →
        seat_walk capacity (g :: gs') acc =
          seat_walk capacity gs' (acc.1 ++ g.passengers, acc.2)) ∧
      (capacity < (acc.1.length : Int) + (g.passengers.length : Int) →
        seat_walk capacity (g :: gs') acc =
          seat_walk capacity gs' (acc.1, acc.2 ++ g.passengers))) ∧
    seat_walk capacity (g₁ :: g₂ :: gs) (booked, overbooked) =
      seat_walk capacity gs (booked ++ g₂.passengers, overbooked ++ g₁.passengers) ∧
    ∀ p ∈ g₂.passengers,
      p ∈ (seat_walk capacity (g₁ :: g₂ :: gs) (booked, overbooked)).1 := by
  have hstep : ∀ (g : GroupedPassengers) (gs' : List GroupedPassengers)
      (acc : List PassengerCreate × List PassengerCreate),
      ((acc.1.length : Int) + (g.passengers.length : Int) ≤ capacity →
        seat_walk capacity (g :: gs') acc =
          seat_walk capacity gs' (acc.1 ++ g.passengers, acc.2)) ∧
      (capacity < (acc.1.length : Int) + (g.passengers.length : Int) →
        seat_walk capacity (g :: gs') acc =
          seat_walk capacity gs' (acc.1, acc.2 ++ g.passengers)) := by
    intro g gs' acc
    constructor
    · intro hle
      rw [seat_walk_cons]
      unfold seat_step
      rw [if_pos hle]
    · intro hgt
      rw [seat_walk_cons]
      unfold seat_step
      rw [if_neg (not_le.mpr hgt)]
  have hrun : seat_walk capacity (g₁ :: g₂ :: gs) (booked, overbooked) =
      seat_walk capacity gs (booked ++ g₂.passengers, overbooked ++ g₁.passengers) := by
    rw [(hstep g₁ (g₂ :: gs) (booked, overbooked)).2 hrej]
    exact (hstep g₂ gs (booked, overbooked ++ g₁.passengers)).1 hfit
  refine ⟨hstep, hrun, fun p hp => ?_⟩
  rw [hrun]
  exact seat_walk_booked_mem capacity gs _ p (List.mem_append_right booked hp)

/-- C6 (witness): with capacity 3, a rejected size-4 top group followed by
a size-1 group — the size-1 group's member is seated. -/
theorem seat_walk_best_effort_witness :
    sample_sd ∈ (seat_walk 3
      [⟨0, [sample_pa, sample_pb, sample_qb, sample_rc]⟩, ⟨0, [sample_sd]⟩]
      ([], [])).1 :=
  (seat_walk_best_effort 3 [] [] ⟨0, [sample_pa, sample_pb, sample_qb, sample_rc]⟩
    ⟨0, [sample_sd]⟩ [] (by decide) (by decide)).2.2 sample_sd (by decide)

/-! Claim C4 -/

theorem seat_walk_partition (capacity : Int) (gs : List GroupedPassengers) :
    ∀ acc : List PassengerCreate × List PassengerCreate,
      ∃ A R : List GroupedPassengers,
        (seat_walk capacity gs acc).1 =
          acc.1 ++ (A.map (fun g => g.passengers)).flatten ∧
        (seat_walk capacity gs acc).2 =
          acc.2 ++ (R.map (fun g => g.passengers)).flatten ∧
        A ++ R ~ gs ∧ A <+ gs ∧ R <+ gs := by
  induction gs with
  | nil =>
    intro acc
    exact ⟨[], [], by simp [seat_walk_nil], by simp [seat_walk_nil], by simp,
      List.nil_sublist _, List.nil_sublist _⟩
  | cons g rest ih =>
    intro acc
    rw [seat_walk_cons]
    unfold seat_step
    by_cases hc : (acc.1.length : Int) + (g.passengers.length : Int) ≤ capacity
    · rw [if_pos hc]
      obtain ⟨A, R, h₁, h₂, hperm, hA, hR⟩ := ih (acc.1 ++ g.passengers, acc.2)
      refine ⟨g :: A, R, ?_, h₂, ?_, hA.cons₂ g, hR.cons g⟩
      · rw [h₁, List.map_cons, List.flatten_cons, List.append_assoc]
      · exact hperm.cons g
    · rw [if_neg hc]
      obtain ⟨A, R, h₁, h₂, hperm, hA, hR⟩ := ih (acc.1, acc.2 ++ g.passengers)
      refine ⟨A, g :: R, h₁, ?_, ?_, hA.cons g, hR.cons₂ g⟩
      · rw [h₂, List.map_cons, List.flatten_cons, List.append_assoc]
      · exact List.perm_middle.trans (hperm.cons g)

theorem flatten_insert_passenger (gs : List (String × GroupedPassengers))
    (p : PassengerCreate) :
    ((insert_passenger gs p).map (fun e => e.2.passengers)).flatten ~
      (gs.map (fun e => e.2.passengers)).flatten ++ [p] := by
  induction gs with
  | nil => simp [insert_passenger]
  | cons hd tl ih =>
    obtain ⟨k, g⟩ := hd
    rw [insert_passenger]
    by_cases hk : k = p.reservation_id
    · rw [if_pos hk]
      simp only [List.map_cons, List.flatten_cons]
      rw [List.append_assoc, List.append_assoc]
      exact (@List.perm_append_comm _ [p] _).append_left g.passengers
    · rw [if_neg hk]
      simp only [List.map_cons, List.flatten_cons]
      rw [List.append_assoc]
      exact ih.append_left g.passengers

theorem flatten_foldl_insert (ps : List PassengerCreate) :
    ∀ gs : List (String × GroupedPassengers),
      ((ps.foldl insert_passenger gs).map (fun e => e.2.passengers)).flatten ~
        (gs.map (fun e => e.2.passengers)).flatten ++ ps := by
  induction ps with
  | nil =>
    intro gs
    simp
  | cons p rest ih =>
    intro gs
    rw [List.foldl_cons]
    calc ((rest.foldl insert_passenger (insert_passenger gs p)).map
            (fun e => e.2.passengers)).flatten
        ~ ((insert_passenger gs p).map (fun e => e.2.passengers)).flatten ++ rest :=
          ih (insert_passenger gs p)
      _ ~ ((gs.map (fun e => e.2.passengers)).flatten ++ [p]) ++ rest :=
          (flatten_insert_passenger gs p).append_right rest
      _ = (gs.map (fun e => e.2.passengers)).flatten ++ (p :: rest) := by
          rw [List.append_assoc]
          rfl

theorem flatten_ordered_groups_perm (ps : List PassengerCreate) :
    ((ordered_groups ps).map (fun g => g.passengers)).flatten ~ ps := by
  have h₁ : (ordered_groups ps).map (fun g => g.passengers) ~
      ((group_passengers ps).map Prod.snd).map (fun g => g.passengers) :=
    (List.perm_insertionSort GroupLE _).map _
  have h₂ := h₁.flatten
  have h₃ : ((group_passengers ps).map Prod.snd).map (fun g => g.passengers) =
      (group_passengers ps).map (fun e => e.2.passengers) := by
    rw [List.map_map]
    rfl
  rw [h₃] at h₂
  refine h₂.trans ?_
  simpa using flatten_foldl_insert ps []

theorem seat_walk_length_le (capacity : Int) (gs : List GroupedPassengers) :
    ∀ acc : List PassengerCreate × List PassengerCreate,
      (acc.1.length : Int) ≤ capacity →
      ((seat_walk capacity gs acc).1.length : Int) ≤ capacity := by
  induction gs with
  | nil =>
    intro acc h
    exact h
  | cons g rest ih =>
    intro acc h
    rw [seat_walk_cons]
    unfold seat_step
    by_cases hc : (acc.1.length : Int) + (g.passengers.length : Int) ≤ capacity
    · rw [if_pos hc]
      refine ih _ ?_
      dsimp only
      rw [List.length_append]
      push_cast
      exact hc
    · rw [if_neg hc]
      exact ih _ h

/-- C4: allocation partitions the input — seated and overbooked together
are a permutation of the input list, seated is the concatenation of the
member lists of an admitted subset of the ranked groups and overbooked of
the rejected rest (so no group is ever split), and the seated count never
exceeds the capacity. -/
theorem order_passengers_partition_invariants (ps : List PassengerCreate)
    (capacity : Int) (hcap : 0 ≤ capacity) :
    ((order_passengers ps capacity).1 ++ (order_passengers ps capacity).2) ~ ps ∧
    (∃ A R : List GroupedPassengers,
      (order_passengers ps capacity).1 = (A.map (fun g => g.passengers)).flatten ∧
      (order_passengers ps capacity).2 = (R.map (fun g => g.passengers)).flatten ∧
      A ++ R ~ ordered_groups ps ∧ A <+ ordered_groups ps ∧ R <+ ordered_groups ps) ∧
    ((order_passengers ps capacity).1.length : Int) ≤ capacity := by
  obtain ⟨A, R, h₁, h₂, hperm, hA, hR⟩ :=
    seat_walk_partition capacity (ordered_groups ps) ([], [])
  simp only [List.nil_append] at h₁ h₂
  refine ⟨?_, ⟨A, R, ?_, ?_, hperm, hA, hR⟩, ?_⟩
  · unfold order_passengers
    rw [h₁, h₂, ← List.flatten_append, ← List.map_append]
    exact ((hperm.map (fun g => g.passengers)).flatten).trans
      (flatten_ordered_groups_perm ps)
  · exact h₁
  · exact h₂
  · exact seat_walk_length_le capacity (ordered_groups ps) ([], []) (by simpa using hcap)

/-- C4 (witness): the partition invariants at a concrete two-passenger
list against capacity 1. -/
theorem order_passengers_partition_invariants_witness :
    ((order_passengers [sample_pa, sample_qb] 1).1 ++
        (order_passengers [sample_pa, sample_qb] 1).2) ~ [sample_pa, sample_qb] ∧
    (∃ A R : List GroupedPassengers,
      (order_passengers [sample_pa, sample_qb] 1).1 =
        (A.map (fun g => g.passengers)).flatten ∧
      (order_passengers [sample_pa, sample_qb] 1).2 =
        (R.map (fun g => g.passengers)).flatten ∧
      A ++ R ~ ordered_groups [sample_pa, sample_qb] ∧
      A <+ ordered_groups [sample_pa, sample_qb] ∧
      R <+ ordered_groups [sample_pa, sample_qb]) ∧
    ((order_passengers [sample_pa, sample_qb] 1).1.length : Int) ≤ 1 :=
  order_passengers_partition_invariants [sample_pa, sample_qb] 1 (by decide)

/-! Claim C3 -/

/-- C3: the ranked group sequence is a permutation of the grouped values
(whose order is first-appearance order of the reservation ids), it is
pairwise ordered by strictly descending average score with ties broken by
strictly larger group size, and any two groups tied on both average and
size keep their first-appearance order (stability). -/
theorem ordered_groups_ranking (ps : List PassengerCreate) :
    ordered_groups ps ~ (group_passengers ps).map Prod.snd ∧
    (ordered_groups ps).Pairwise (fun g₁ g₂ =>
      avg g₂ < avg g₁ ∨ (avg g₁ = avg g₂ ∧ g₂.passengers.length < g₁.passengers.length) ∨
        (avg g₁ = avg g₂ ∧ g₁.passengers.length = g₂.passengers.length)) ∧
    ∀ g₁ g₂, avg g₁ = avg g₂ → g₁.passengers.length = g₂.passengers.length →
      [g₁, g₂] <+ (group_passengers ps).map Prod.snd →
      [g₁, g₂] <+ ordered_groups ps := by
  unfold ordered_groups
  refine ⟨List.perm_insertionSort GroupLE _, ?_, ?_⟩
  · refine (List.sorted_insertionSort GroupLE ((group_passengers ps).map Prod.snd)).imp ?_
    intro g₁ g₂ h
    rcases h with h | ⟨he, hle⟩
    · exact Or.inl h
    · rcases lt_or_eq_of_le hle with hlt | heq
      · exact Or.inr (Or.inl ⟨he, hlt⟩)
      · exact Or.inr (Or.inr ⟨he, heq.symm⟩)
  · intro g₁ g₂ havg hlen hsub
    exact List.sublist_insertionSort
      (List.pairwise_pair.mpr (Or.inr ⟨havg, le_of_eq hlen.symm⟩)) hsub

/-- C3 (witness): two singleton groups with equal average 7 and equal size
keep their first-appearance order in the ranked output. -/
theorem ordered_groups_ranking_witness :
    [(⟨7, [sample_rc]⟩ : GroupedPassengers), ⟨7, [sample_sd]⟩] <+
      ordered_groups [sample_rc, sample_sd] :=
  (ordered_groups_ranking [sample_rc, sample_sd]).2.2 ⟨7, [sample_rc]⟩ ⟨7, [sample_sd]⟩
    (by simp only [avg_eq_avg_key]; decide) (by decide) (by decide)

end Flights
